import Mathlib

/-!
# Verification of the ideeza-backend analytics application

Shallow embedding of `analytics/views.py`, `analytics/middleware.py` and the
schema of `analytics/models.py`, together with proofs of the stated
properties of the three endpoints (blog-views grouping, top-N ranking,
period-over-period performance comparison), of the dynamic filter compiler,
of the calendar range resolver and of the throttling middleware.

Timestamps are modelled at day granularity as proleptic-Gregorian ordinals
(the count used by Python's `date.toordinal`, with 0001-01-01 = 1); the
database layer (Django ORM) is modelled by explicit list traversals, and the
compiled filter predicate reaching the ORM is abstracted as a boolean
predicate on blog rows where an endpoint consumes it.
-/

namespace Analytics

/-! ## Calendar dates (embedding of the `datetime` arithmetic used by the code) -/

structure Date where
  year : Nat
  month : Nat
  day : Nat
deriving DecidableEq, Repr

def isLeap (y : Nat) : Bool :=
  (y % 4 == 0 && y % 100 != 0) || (y % 400 == 0)

def daysInMonth (y m : Nat) : Nat :=
  if m = 2 then (if isLeap y then 29 else 28)
  else if m = 4 ∨ m = 6 ∨ m = 9 ∨ m = 11 then 30
  else 31

/-- Days in year `y` strictly before month `m` (cumulative month lengths). -/
def daysBeforeMonth (y m : Nat) : Nat :=
  let l : Nat := if isLeap y then 1 else 0
  if m ≤ 1 then 0
  else if m = 2 then 31
  else if m = 3 then 59 + l
  else if m = 4 then 90 + l
  else if m = 5 then 120 + l
  else if m = 6 then 151 + l
  else if m = 7 then 181 + l
  else if m = 8 then 212 + l
  else if m = 9 then 243 + l
  else if m = 10 then 273 + l
  else if m = 11 then 304 + l
  else 334 + l

def Date.Valid (d : Date) : Prop :=
  1 ≤ d.year ∧ 1 ≤ d.month ∧ d.month ≤ 12 ∧ 1 ≤ d.day ∧ d.day ≤ daysInMonth d.year d.month

instance (d : Date) : Decidable d.Valid := by
  unfold Date.Valid; infer_instance

/-- Python's `date.toordinal`: proleptic Gregorian ordinal, 0001-01-01 = 1. -/
def toOrdinal (d : Date) : Nat :=
  365 * (d.year - 1) + (d.year - 1) / 4 - (d.year - 1) / 100 + (d.year - 1) / 400
    + daysBeforeMonth d.year d.month + d.day

/-- Python's `date.weekday`: Monday = 0 .. Sunday = 6. -/
def Date.weekday (d : Date) : Nat := (toOrdinal d + 6) % 7

/-- The calendar day before `d` (valid for valid `d` other than 0001-01-01). -/
def prevDay (d : Date) : Date :=
  if 2 ≤ d.day then ⟨d.year, d.month, d.day - 1⟩
  else if 2 ≤ d.month then ⟨d.year, d.month - 1, daysInMonth d.year (d.month - 1)⟩
  else ⟨d.year - 1, 12, 31⟩

/-- `d - timedelta(days := n)`; CPython computes `fromordinal (toordinal d - n)`,
which coincides with iterating the previous-day step `n` times. -/
def subDays (d : Date) : Nat → Date
  | 0 => d
  | n + 1 => prevDay (subDays d n)

structure DateTime where
  year : Nat
  month : Nat
  day : Nat
  hour : Nat
  minute : Nat
  second : Nat
  microsecond : Nat
deriving DecidableEq, Repr

def DateTime.date (t : DateTime) : Date := ⟨t.year, t.month, t.day⟩

def DateTime.Valid (t : DateTime) : Prop := t.date.Valid

instance (t : DateTime) : Decidable t.Valid := by
  unfold DateTime.Valid; infer_instance

def DateTime.weekday (t : DateTime) : Nat := t.date.weekday

/-- `get_range_start` from `analytics/views.py`: start of the current calendar
period, anchored at `now`.  Branch order and the silent fall-through to the
month branch mirror the source. -/
def get_range_start (range_type : String) (now : DateTime) : DateTime :=
  if range_type = "month" then
    { now with day := 1, hour := 0, minute := 0, second := 0, microsecond := 0 }
  else if range_type = "week" then
    let d := subDays now.date now.weekday
    ⟨d.year, d.month, d.day, 0, 0, 0, 0⟩
  else if range_type = "year" then
    { now with month := 1, day := 1, hour := 0, minute := 0, second := 0, microsecond := 0 }
  else
    { now with day := 1, hour := 0, minute := 0, second := 0, microsecond := 0 }

/-! ## Schema model (`analytics/models.py`) -/

structure Country where
  id : Nat
  name : String
deriving DecidableEq, Repr

structure User where
  id : Nat
  username : String
  countryId : Nat
deriving DecidableEq, Repr

structure Blog where
  id : Nat
  title : String
  content : String
  authorId : Nat
  createdAt : Nat
deriving DecidableEq, Repr

structure View where
  id : Nat
  blogId : Nat
  userId : Option Nat
  timestamp : Nat
deriving DecidableEq, Repr

structure DB where
  countries : List Country
  users : List User
  blogs : List Blog
  views : List View
deriving DecidableEq, Repr

def userById (db : DB) (i : Nat) : Option User :=
  db.users.find? (fun u => u.id == i)

def countryById (db : DB) (i : Nat) : Option Country :=
  db.countries.find? (fun c => c.id == i)

def blogById (db : DB) (i : Nat) : Option Blog :=
  db.blogs.find? (fun b => b.id == i)

/-- The blog row a `View` joins to through its `blog` foreign key. -/
def blogOfView (db : DB) (v : View) : Blog :=
  (blogById db v.blogId).getD ⟨0, "", "", 0, 0⟩

/-- Schema path `author__country` evaluated on a blog row. -/
def blogCountryKey (db : DB) (b : Blog) : Nat :=
  ((userById db b.authorId).map (fun u => u.countryId)).getD 0

/-- Country name by country id (`country__name` through the FK). -/
def countryLabel (db : DB) (k : Nat) : String :=
  ((countryById db k).map (fun c => c.name)).getD ""

/-- Username by user id. -/
def userLabel (db : DB) (k : Nat) : String :=
  ((userById db k).map (fun u => u.username)).getD ""

/-! ## Filter compiler (`build_dynamic_filters` in `analytics/views.py`)

A compiled Django `Q` object is modelled as a predicate tree; a leaf
`Q(**{f"{path}__{lookup}": value})` is `Pred.leaf path lookup value` (the
bare-field case `Q(**{path: value})` carries Django's implied `exact`). -/

inductive FVal where
  | str : String → FVal
  | strs : List String → FVal
deriving DecidableEq, Repr

inductive Pred where
  | tru : Pred
  | and : Pred → Pred → Pred
  | not : Pred → Pred
  | leaf : String → String → FVal → Pred
deriving DecidableEq, Repr

/-- Scan a reversed character list for the first adjacent pair of
underscores; returns the pieces of the original string around the rightmost
`"__"` (the split point of Python's `rsplit('__', 1)`). -/
def rsplitDunderAux : List Char → List Char → Option (List Char × List Char)
  | '_' :: '_' :: rest, acc => some (rest.reverse, acc)
  | c :: rest, acc => rsplitDunderAux rest (c :: acc)
  | [], _ => none

/-- `key.rsplit('__', 1)` guarded by `'__' in key`: `none` when the key
contains no `"__"`. -/
def rsplitDunder (s : String) : Option (String × String) :=
  match rsplitDunderAux s.toList.reverse [] with
  | some (f, op) => some (String.mk f, String.mk op)
  | none => none

/-- Helper for `value.split(',')` on the character list. -/
def splitCommaAux : List Char → List Char → List String
  | [], acc => [String.mk acc.reverse]
  | ',' :: rest, acc => String.mk acc.reverse :: splitCommaAux rest []
  | c :: rest, acc => splitCommaAux rest (c :: acc)

/-- Python's `value.split(',')`. -/
def splitComma (s : String) : List String := splitCommaAux s.toList []

/-- The operator-token table (`.get(operator, 'exact')`). -/
def opLookup (op : String) : String :=
  if op = "eq" then "exact"
  else if op = "ne" then "exact"
  else if op = "in" then "in"
  else if op = "contains" then "contains"
  else if op = "icontains" then "icontains"
  else if op = "gt" then "gt"
  else if op = "gte" then "gte"
  else if op = "lt" then "lt"
  else if op = "lte" then "lte"
  else "exact"

/-- `field_mapping.get(field, field)`. -/
def mapField (mapping : List (String × String)) (f : String) : String :=
  ((mapping.find? (fun e => e.1 == f)).map (fun e => e.2)).getD f

/-- The body of the `for key, value in query_params.items()` loop for one
non-excluded parameter: the `Q` object conjoined onto `filters`. -/
def compile_param (mapping : List (String × String)) (key value : String) : Pred :=
  match rsplitDunder key with
  | some (field, op) =>
    let lookup := opLookup op
    let actual := mapField mapping field
    if op = "in" then .leaf actual lookup (.strs (splitComma value))
    else if op = "ne" then .not (.leaf actual lookup (.str value))
    else .leaf actual lookup (.str value)
  | none => .leaf (mapField mapping key) "exact" (.str value)

/-- `build_dynamic_filters(query_params, exclude_params, field_mapping)`.
Query parameters are the items of the request's `QueryDict` (each key once,
with its last value, matching `QueryDict.items`). -/
def build_dynamic_filters (query_params : List (String × String))
    (exclude_params : List String) (mapping : List (String × String)) : Pred :=
  query_params.foldl
    (fun acc kv =>
      if kv.1 ∈ exclude_params then acc
      else .and acc (compile_param mapping kv.1 kv.2))
    .tru

/-- Schema paths of every leaf of a predicate tree. -/
def leafPaths : Pred → List String
  | .tru => []
  | .and p q => leafPaths p ++ leafPaths q
  | .not p => leafPaths p
  | .leaf path _ _ => [path]

/-- The field-name part of a raw query-parameter key (text before the
rightmost `"__"`, or the whole key when there is none). -/
def fieldOf (key : String) : String :=
  match rsplitDunder key with
  | some (f, _) => f
  | none => key

/-! ## Aggregation engine: group-by mode (`BlogViewsAPI.get`)

A `values(...).annotate(Count('id'))` grouped query is modelled by
`groupCount`: the distinct keys in first-occurrence order, each with the
number of matching rows.  The code's grouping keys pair an id with a name
(`country_id`/`country_name`, `user_pk`/`username`); the name is the image
of the id through the foreign-key joins, so grouping by the pair equals
grouping by the id with the name looked up per key. -/

def dedupFirstAux (seen : List Nat) : List Nat → List Nat
  | [] => []
  | k :: rest => if k ∈ seen then dedupFirstAux seen rest else k :: dedupFirstAux (k :: seen) rest

/-- Distinct elements in order of first occurrence. -/
def dedupFirst (l : List Nat) : List Nat := dedupFirstAux [] l

/-- Grouped count: one `(key, count)` pair per distinct key of `l` under `f`. -/
def groupCount (l : List α) (f : α → Nat) : List (Nat × Nat) :=
  (dedupFirst (l.map f)).map (fun k => (k, l.countP (fun a => f a == k)))

structure Row where
  x : String
  y : Nat
  z : Nat
deriving DecidableEq, Repr

/-- `Blog.objects.filter(filters)` with the compiled filter abstracted as `p`. -/
def blogsQs (db : DB) (p : Blog → Bool) : List Blog :=
  db.blogs.filter p

/-- `View.objects.filter(timestamp__gte=start, blog__in=blogs_qs)`. -/
def gviewsQs (db : DB) (p : Blog → Bool) (start : Nat) : List View :=
  db.views.filter (fun v => start ≤ v.timestamp && (blogsQs db p).any (fun b => b.id == v.blogId))

/-- Group key of a view through its blog (`blog__author__...`). -/
def viewKeyOf (db : DB) (keyOf : Blog → Nat) (v : View) : Nat :=
  keyOf (blogOfView db v)

/-- The group-by branch of `BlogViewsAPI.get` (lines 104–149): two grouped
counts merged through a `defaultdict` keyed by group id — blog rows set `x`
and `y`, view rows set `z`, keys reached only by the view loop keep the
defaults `x = ''`, `y = 0` — then rows where both counts are zero are
dropped.  `keyOf`/`labelOf` instantiate the country and user variants. -/
def groupByMode (db : DB) (p : Blog → Bool) (start : Nat)
    (keyOf : Blog → Nat) (labelOf : Nat → String) : List Row :=
  let bg := groupCount (blogsQs db p) keyOf
  let vg := groupCount (gviewsQs db p start) (viewKeyOf db keyOf)
  let keys := dedupFirst (bg.map (fun e => e.1) ++ vg.map (fun e => e.1))
  (keys.map (fun k =>
    { x := if (bg.find? (fun e => e.1 == k)).isSome then labelOf k else ""
      y := ((bg.find? (fun e => e.1 == k)).map (fun e => e.2)).getD 0
      z := ((vg.find? (fun e => e.1 == k)).map (fun e => e.2)).getD 0 })).filter
    (fun r => 0 < r.y || 0 < r.z)

/-- `object_type=country` instance of the group-by branch. -/
def blogViewsCountry (db : DB) (p : Blog → Bool) (start : Nat) : List Row :=
  groupByMode db p start (blogCountryKey db) (countryLabel db)

/-- `object_type=user` instance of the group-by branch. -/
def blogViewsUser (db : DB) (p : Blog → Bool) (start : Nat) : List Row :=
  groupByMode db p start (fun b => b.authorId) (userLabel db)

/-! ## Aggregation engine: top-N mode (`TopAPI.get`)

`order_by('-total_views')[:10]` is a descending sort on the grouped view
counts followed by truncation; ties are ordered by the store's unspecified
secondary order, rendered here as a concrete stable insertion sort. -/

def insertDesc (a : Nat × Nat) : List (Nat × Nat) → List (Nat × Nat)
  | [] => [a]
  | b :: l => if b.2 ≤ a.2 then a :: b :: l else b :: insertDesc a l

def sortDesc : List (Nat × Nat) → List (Nat × Nat)
  | [] => []
  | a :: l => insertDesc a (sortDesc l)

/-- Group the rows of `l` by `f`, rank by count descending, keep the top 10. -/
def topRanked (l : List α) (f : α → Nat) : List (Nat × Nat) :=
  (sortDesc (groupCount l f)).take 10

/-- Blog count per group over the filtered blog set (`user_blog_counts` /
`country_blog_counts`), with `.get(key, 0)`. -/
def blogCountFor (db : DB) (p : Blog → Bool) (keyOf : Blog → Nat) (k : Nat) : Nat :=
  (((groupCount (blogsQs db p) keyOf).find? (fun e => e.1 == k)).map (fun e => e.2)).getD 0

/-- `top=user` branch of `TopAPI.get`. -/
def topUserRows (db : DB) (p : Blog → Bool) (start : Nat) : List Row :=
  (topRanked (gviewsQs db p start) (fun v => (blogOfView db v).authorId)).map
    (fun t => { x := userLabel db t.1, y := t.2,
                z := blogCountFor db p (fun b => b.authorId) t.1 })

/-- `top=country` branch of `TopAPI.get`. -/
def topCountryRows (db : DB) (p : Blog → Bool) (start : Nat) : List Row :=
  (topRanked (gviewsQs db p start) (viewKeyOf db (blogCountryKey db))).map
    (fun t => { x := countryLabel db t.1, y := t.2,
                z := blogCountFor db p (blogCountryKey db) t.1 })

structure TopBlogRow where
  x : String
  y : Nat
  z : String
deriving DecidableEq, Repr

/-- `top=blog` branch of `TopAPI.get`: `z` is the author's username. -/
def topBlogRows (db : DB) (p : Blog → Bool) (start : Nat) : List TopBlogRow :=
  (topRanked (gviewsQs db p start) (fun v => v.blogId)).map
    (fun t => { x := ((blogById db t.1).map (fun b => b.title)).getD "",
                y := t.2,
                z := userLabel db (((blogById db t.1).map (fun b => b.authorId)).getD 0) })

/-! ## Aggregation engine: performance mode (`PerformanceAPI.get`)

Period truncation (`TruncDay`/`TruncWeek`/`TruncMonth`/`TruncYear`) is a
collaborator of the store and is kept abstract as a map on timestamps;
`x` renders the period with `toString` in place of `strftime('%Y-%m-%d')`. -/

/-- The `timedelta` chosen per `compare` granularity, in days. -/
def perfDeltaDays (compare : String) : Nat :=
  if compare = "month" then 30 * 12
  else if compare = "week" then 7 * 12
  else if compare = "day" then 30
  else if compare = "year" then 365 * 5
  else 30 * 12

/-- `start = now - delta` at day granularity. -/
def perfWindowStart (compare : String) (now : Nat) : Nat :=
  now - perfDeltaDays compare

/-- `Blog.objects.filter(created_at__gte=start).filter(filters)` plus the
truthiness-guarded `author__username=user_param` narrowing. -/
def perfBlogsQs (db : DB) (p : Blog → Bool) (start : Nat)
    (userParam : Option String) : List Blog :=
  let base := (db.blogs.filter (fun b => start ≤ b.createdAt)).filter p
  match userParam with
  | some u => if u = "" then base else base.filter (fun b => userLabel db b.authorId == u)
  | none => base

/-- `View.objects.filter(timestamp__gte=start, blog__in=blogs_qs)`. -/
def perfViewsQs (db : DB) (p : Blog → Bool) (start : Nat)
    (userParam : Option String) : List View :=
  db.views.filter (fun v =>
    start ≤ v.timestamp && (perfBlogsQs db p start userParam).any (fun b => b.id == v.blogId))

/-- Round-half-to-even to an integer (Python's `round`), written out on the
numerator and denominator of the reduced fraction: `f` is the floor, `rn/den`
the fractional part, and the three branches are fraction below, above, and
exactly one half. -/
def roundHalfEven (q : ℚ) : ℤ :=
  let a := q.num
  let b : ℤ := (q.den : ℤ)
  let f := Int.fdiv a b
  let rn := a - f * b
  if 2 * rn < b then f
  else if b < 2 * rn then f + 1
  else if f % 2 = 0 then f
  else f + 1

/-- `round(z, 2)`. -/
def round2 (q : ℚ) : ℚ := (roundHalfEven (q * 100) : ℚ) / 100

structure PerfRow where
  x : String
  y : Nat
  z : ℚ
deriving DecidableEq, Repr

/-- The percent-change expression of the loop body, before rounding:
`((y - prev_views) / prev_views) * 100` when `prev_views` is neither `None`
nor 0, else 0. -/
def perfZ (prev : Option Nat) (y : Nat) : ℚ :=
  match prev with
  | some pv => if pv ≠ 0 then (((y : ℚ) - (pv : ℚ)) / (pv : ℚ)) * 100 else 0
  | none => 0

def insertAsc (a : Nat) : List Nat → List Nat
  | [] => [a]
  | b :: l => if a ≤ b then a :: b :: l else b :: insertAsc a l

/-- `sorted(...)` on the period keys. -/
def sortAsc : List Nat → List Nat
  | [] => []
  | a :: l => insertAsc a (sortAsc l)

/-- The output loop over `sorted_periods`, carrying `prev_views`. -/
def perfGo (bp vp : List (Nat × Nat)) : List Nat → Option Nat → List PerfRow
  | [], _ => []
  | per :: rest, prev =>
    let blogs := ((bp.find? (fun e => e.1 == per)).map (fun e => e.2)).getD 0
    let y := ((vp.find? (fun e => e.1 == per)).map (fun e => e.2)).getD 0
    { x := toString per ++ " (" ++ toString blogs ++ " blogs)",
      y := y,
      z := round2 (perfZ prev y) } :: perfGo bp vp rest (some y)

/-- The full performance pipeline for an already-resolved window start. -/
def perfRows (trunc : Nat → Nat) (db : DB) (p : Blog → Bool) (start : Nat)
    (userParam : Option String) : List PerfRow :=
  let bp := groupCount (perfBlogsQs db p start userParam) (fun b => trunc b.createdAt)
  let vp := groupCount (perfViewsQs db p start userParam) (fun v => trunc v.timestamp)
  perfGo bp vp (sortAsc (dedupFirst (bp.map (fun e => e.1) ++ vp.map (fun e => e.1)))) none

/-! ## Endpoint dispatch and validation

The Django ORM's evaluation of a compiled `Q` object against a blog row is a
collaborator, abstracted as `ev`; the response is the JSON-able payload with
its HTTP status. -/

inductive Resp where
  | rows : List Row → Resp
  | blogRows : List TopBlogRow → Resp
  | perf : List PerfRow → Resp
  | err : Nat → String → Resp
deriving DecidableEq, Repr

/-- `request.query_params.get(k, d)`. -/
def qget (params : List (String × String)) (k d : String) : String :=
  ((params.find? (fun e => e.1 == k)).map (fun e => e.2)).getD d

/-- The `field_mapping` dict shared by the three endpoints. -/
def field_mapping : List (String × String) :=
  [("country", "author__country__name"), ("user", "author__username"),
   ("title", "title"), ("content", "content")]

/-- `BlogViewsAPI.get`. -/
def blogViewsAPI (ev : Pred → Blog → Bool) (params : List (String × String))
    (db : DB) (now : DateTime) : Resp :=
  let object_type := qget params "object_type" "country"
  if object_type ∉ (["country", "user"] : List String) then
    .err 400 "object_type must be country or user"
  else
    let range_type := qget params "range" "month"
    if range_type ∉ (["month", "week", "year"] : List String) then
      .err 400 "range must be month, week, or year"
    else
      let p := ev (build_dynamic_filters params ["object_type", "range"] field_mapping)
      let start := toOrdinal (get_range_start range_type now).date
      if object_type = "country" then .rows (blogViewsCountry db p start)
      else if object_type = "user" then .rows (blogViewsUser db p start)
      else .rows []

/-- `TopAPI.get`. -/
def topAPI (ev : Pred → Blog → Bool) (params : List (String × String))
    (db : DB) (now : DateTime) : Resp :=
  let top_type := qget params "top" "user"
  if top_type ∉ (["user", "country", "blog"] : List String) then
    .err 400 "top must be user, country, or blog"
  else
    let range_type := qget params "range" "month"
    if range_type ∉ (["month", "week", "year"] : List String) then
      .err 400 "range must be month, week, or year"
    else
      let p := ev (build_dynamic_filters params ["top", "range"] field_mapping)
      let start := toOrdinal (get_range_start range_type now).date
      if top_type = "user" then .rows (topUserRows db p start)
      else if top_type = "country" then .rows (topCountryRows db p start)
      else if top_type = "blog" then .blogRows (topBlogRows db p start)
      else .rows []

/-- `PerformanceAPI.get`; `truncFamily` supplies the store's truncation
function per granularity, `now` is the current instant at day granularity. -/
def performanceAPI (ev : Pred → Blog → Bool) (truncFamily : String → Nat → Nat)
    (params : List (String × String)) (db : DB) (now : Nat) : Resp :=
  let compare := qget params "compare" "month"
  if compare ∉ (["month", "week", "day", "year"] : List String) then
    .err 400 "compare must be month, week, day, or year"
  else
    let user_param := (params.find? (fun e => e.1 == "user")).map (fun e => e.2)
    let p := ev (build_dynamic_filters params ["compare", "user"] field_mapping)
    let start := perfWindowStart compare now
    .perf (perfRows (truncFamily compare) db p start user_param)

/-! ## Throttling middleware (`AnalyticsThrottlingMiddleware`)

The counter store (`django.core.cache`) is modelled as the entry under
`rate_limit:<client-ip>` for one fixed client IP: a stored count with its
expiry instant; `cache.get` yields 0 once the TTL has passed. -/

structure RateLimitError where
  status : Nat
  error : String
  retryAfter : Nat
deriving DecidableEq, Repr

/-- The 429 payload built by the middleware. -/
def rateLimitResponse : RateLimitError :=
  ⟨429, "Rate limit exceeded. Please try again later.", 60⟩

structure RLEntry where
  count : Nat
  expiresAt : Nat
deriving DecidableEq, Repr

/-- `cache.get(cache_key, 0)` at instant `t`. -/
def effCount (s : Option RLEntry) (t : Nat) : Nat :=
  match s with
  | some e => if t < e.expiresAt then e.count else 0
  | none => 0

/-- `_is_rate_limited`: at least 50 requests already recorded. -/
def isRateLimited (s : Option RLEntry) (t : Nat) : Bool :=
  50 ≤ effCount s t

/-- One middleware call for an analytics-path request at instant `t`:
`some` response means the request was rejected before reaching the handler;
otherwise `_record_request` re-stores the incremented counter with a fresh
60-second TTL and the request is passed on. -/
def throttleCall (s : Option RLEntry) (t : Nat) : Option RateLimitError × Option RLEntry :=
  if isRateLimited s t then (some rateLimitResponse, s)
  else (none, some ⟨effCount s t + 1, t + 60⟩)

def charsStart : List Char → List Char → Bool
  | [], _ => true
  | _ :: _, [] => false
  | c :: cs, d :: ds => c == d && charsStart cs ds

/-- `request.path.startswith('/analytics/')`. -/
def isAnalyticsPath (path : String) : Bool :=
  charsStart "/analytics/".toList path.toList

/-- The middleware `__call__`: non-analytics paths bypass throttling. -/
def throttleMiddleware (path : String) (s : Option RLEntry) (t : Nat) :
    Option RateLimitError × Option RLEntry :=
  if isAnalyticsPath path then throttleCall s t else (none, s)

/-- Counter state after `n` admitted-or-rejected analytics requests at
instant `t`, starting from an absent entry. -/
def throttleIter (t : Nat) : Nat → Option RLEntry
  | 0 => none
  | n + 1 => (throttleCall (throttleIter t n) t).2

/-! ## Test fixtures (concrete database instances used by witnesses) -/

/-- Two authors in two countries, two blogs, three views (the scenario of
the test suite: alice/USA and bob/Canada). -/
def dbW : DB :=
  { countries := [⟨1, "USA"⟩, ⟨2, "Canada"⟩]
    users := [⟨1, "alice", 1⟩, ⟨2, "bob", 2⟩]
    blogs := [⟨1, "Blog 1", "C1", 1, 100⟩, ⟨2, "Blog 2", "C2", 2, 102⟩]
    views := [⟨1, 1, some 1, 105⟩, ⟨2, 1, some 2, 105⟩, ⟨3, 2, some 1, 106⟩] }

/-- The spec description of the performance comparison window, for the
refinement comparison of the window constants: 30 days for `day`, 12 weeks
for `week`, 12 calendar months (same day of month, previous year) for
`month`, 5 calendar years for `year`. -/
def specWindowStart (compare : String) (now : Date) : Nat :=
  if compare = "day" then toOrdinal now - 30
  else if compare = "week" then toOrdinal now - 12 * 7
  else if compare = "month" then toOrdinal ⟨now.year - 1, now.month, now.day⟩
  else toOrdinal ⟨now.year - 5, now.month, now.day⟩

/-! ## Claim C3: the performance comparison window -/

/-- C3 counterexample: at `now = 2025-03-15` the window lower bound the code
computes for `compare=month` is 360 days before `now`, which is not the
date 12 calendar months earlier (2024-03-15, 365 days back), and for
`compare=year` it is 1825 days before `now`, not 5 calendar years earlier
(2020-03-15, 1826 days back); the `day` and `week` windows agree with the
spec wording. -/
theorem perfWindow_not_calendar :
    perfWindowStart "month" (toOrdinal ⟨2025, 3, 15⟩) ≠ specWindowStart "month" ⟨2025, 3, 15⟩ ∧
    perfWindowStart "year" (toOrdinal ⟨2025, 3, 15⟩) ≠ specWindowStart "year" ⟨2025, 3, 15⟩ ∧
    perfWindowStart "day" (toOrdinal ⟨2025, 3, 15⟩) = specWindowStart "day" ⟨2025, 3, 15⟩ ∧
    perfWindowStart "week" (toOrdinal ⟨2025, 3, 15⟩) = specWindowStart "week" ⟨2025, 3, 15⟩ := by
  refine ⟨?_, ?_, ?_, ?_⟩ <;> decide

/-- C3 (amended): the comparison window lower bound is `now` minus a fixed
number of days per granularity: 30 days for `compare=day`, 12×7 days for
`compare=week`, 30×12 = 360 days for `compare=month` and 365×5 = 1825 days
for `compare=year` (fixed day counts approximating 12 months and 5 years). -/
theorem perfWindow_fixed_days (c : String) (now : Nat) :
    perfWindowStart c now = now - perfDeltaDays c ∧
    perfDeltaDays "day" = 30 ∧
    perfDeltaDays "week" = 12 * 7 ∧
    perfDeltaDays "month" = 30 * 12 ∧
    perfDeltaDays "year" = 365 * 5 := by
  exact ⟨rfl, rfl, rfl, rfl, rfl⟩

/-! ## Claim C8: invalid enum parameters are rejected up front -/

/-- C8: a request whose `object_type`, `top` or `compare` value (after the
documented default) falls outside the allowed enumeration produces the 400
response with the descriptive message of the source, for every database,
ORM evaluator, truncation family and clock — so no filter compilation and
no aggregation contributes to the response. -/
theorem invalid_enum_rejected (ev : Pred → Blog → Bool)
    (truncFamily : String → Nat → Nat) (params : List (String × String))
    (db : DB) (now : DateTime) (pnow : Nat) :
    (qget params "object_type" "country" ∉ (["country", "user"] : List String) →
      blogViewsAPI ev params db now = .err 400 "object_type must be country or user") ∧
    (qget params "top" "user" ∉ (["user", "country", "blog"] : List String) →
      topAPI ev params db now = .err 400 "top must be user, country, or blog") ∧
    (qget params "compare" "month" ∉ (["month", "week", "day", "year"] : List String) →
      performanceAPI ev truncFamily params db pnow = .err 400 "compare must be month, week, day, or year") := by
  refine ⟨fun h => ?_, fun h => ?_, fun h => ?_⟩
  · simp only [blogViewsAPI, if_pos h]
  · simp only [topAPI, if_pos h]
  · simp only [performanceAPI, if_pos h]

/-- C8 witness: a concrete request carrying the three invalid values at
once is rejected by each endpoint. -/
theorem invalid_enum_rejected_witness :
    blogViewsAPI (fun _ _ => true) [("object_type", "bogus"), ("top", "bogus"), ("compare", "bogus")]
        dbW ⟨2026, 10, 15, 0, 0, 0, 0⟩ = .err 400 "object_type must be country or user" ∧
    topAPI (fun _ _ => true) [("object_type", "bogus"), ("top", "bogus"), ("compare", "bogus")]
        dbW ⟨2026, 10, 15, 0, 0, 0, 0⟩ = .err 400 "top must be user, country, or blog" ∧
    performanceAPI (fun _ _ => true) (fun _ n => n)
        [("object_type", "bogus"), ("top", "bogus"), ("compare", "bogus")]
        dbW 739325 = .err 400 "compare must be month, week, day, or year" := by
  have h := invalid_enum_rejected (fun _ _ => true) (fun _ n => n)
    [("object_type", "bogus"), ("top", "bogus"), ("compare", "bogus")]
    dbW ⟨2026, 10, 15, 0, 0, 0, 0⟩ 739325
  exact ⟨h.1 (by decide), h.2.1 (by decide), h.2.2 (by decide)⟩

/-! ## Claim C9: the rate limiter -/

/-- Counter state after the first `n ≤ 50` analytics requests at instant
`t`, starting from an absent entry: every one of them is recorded, so the
stored count is `n` with a 60-second TTL. -/
theorem throttleIter_spec (t : Nat) : ∀ n, n ≤ 50 →
    throttleIter t n = if n = 0 then none else some ⟨n, t + 60⟩ := by
  intro n
  induction n with
  | zero => intro _; rfl
  | succ m ih =>
    intro hle
    have hm : m ≤ 50 := Nat.le_of_succ_le hle
    have := ih hm
    simp only [throttleIter, this, throttleCall]
    rcases Nat.eq_zero_or_pos m with h0 | hpos
    · subst h0
      simp [isRateLimited, effCount]
    · have hne : m ≠ 0 := Nat.pos_iff_ne_zero.mp hpos
      have hlt : m < 50 := by omega
      simp [hne, isRateLimited, effCount, Nat.lt_irrefl, hlt, Nat.not_le.mpr hlt]

/-- C9: on an analytics path, a request finding an unexpired counter at 50
or more is rejected with the structured 429 / retry_after 60 response and
never reaches the handler (the counter is left untouched); each of the
first 50 requests of a window is admitted and increments the counter, and
the 51st is rejected. -/
theorem rate_limit_fifty (path : String) (s : Option RLEntry) (t n : Nat)
    (hpath : isAnalyticsPath path = true) :
    (50 ≤ effCount s t → throttleMiddleware path s t = (some rateLimitResponse, s)) ∧
    (1 ≤ n → n ≤ 50 → throttleIter t n = some ⟨n, t + 60⟩) ∧
    (n < 50 → (throttleCall (throttleIter t n) t).1 = none) ∧
    (throttleCall (throttleIter t 50) t).1 = some rateLimitResponse ∧
    rateLimitResponse.status = 429 ∧ rateLimitResponse.retryAfter = 60 := by
  refine ⟨fun h => ?_, fun h1 h50 => ?_, fun hlt => ?_, ?_, rfl, rfl⟩
  · simp only [throttleMiddleware, hpath, if_pos]
    simp [throttleCall, isRateLimited, h, decide_eq_true_eq]
  · rw [throttleIter_spec t n h50]
    simp [Nat.pos_iff_ne_zero.mp h1]
  · rw [throttleIter_spec t n (Nat.le_of_lt hlt)]
    rcases Nat.eq_zero_or_pos n with h0 | hpos
    · subst h0
      simp [throttleCall, isRateLimited, effCount]
    · have hne : n ≠ 0 := Nat.pos_iff_ne_zero.mp hpos
      simp [hne, throttleCall, isRateLimited, effCount, Nat.not_le.mpr hlt]
  · rw [throttleIter_spec t 50 (Nat.le_refl 50)]
    simp [throttleCall, isRateLimited, effCount]

/-- C9 witness: with the counter at 50 and unexpired, the middleware
rejects; the 7th request of a fresh window is admitted with count 7. -/
theorem rate_limit_fifty_witness :
    throttleMiddleware "/analytics/top" (some ⟨50, 100⟩) 10 = (some rateLimitResponse, some ⟨50, 100⟩) ∧
    throttleIter 10 7 = some ⟨7, 70⟩ ∧
    (throttleCall (throttleIter 10 7) 10).1 = none ∧
    (throttleCall (throttleIter 10 50) 10).1 = some rateLimitResponse := by
  have h := rate_limit_fifty "/analytics/top" (some ⟨50, 100⟩) 10 7 (by decide)
  exact ⟨h.1 (by decide), h.2.1 (by decide) (by decide), h.2.2.1 (by decide), h.2.2.2.1⟩

/-! ## Claim C5: unmapped field names pass through literally -/

/-- The predicate compiled for one parameter has exactly one leaf, whose
schema path is the mapped field name. -/
theorem compile_param_leafPaths (mapping : List (String × String)) (k v : String) :
    leafPaths (compile_param mapping k v) = [mapField mapping (fieldOf k)] := by
  unfold compile_param fieldOf
  cases rsplitDunder k with
  | none => rfl
  | some fo =>
    obtain ⟨f, op⟩ := fo
    by_cases hin : op = "in"
    · simp [hin, leafPaths]
    · by_cases hne : op = "ne"
      · simp [hin, hne, leafPaths]
      · simp [hin, hne, leafPaths]

/-- An absent mapping entry leaves the field name unchanged. -/
theorem mapField_unmapped (mapping : List (String × String)) (f : String)
    (h : mapping.find? (fun e => e.1 == f) = none) : mapField mapping f = f := by
  simp [mapField, h]

/-- Folding further parameters onto an accumulated predicate only ever adds
conjuncts, so existing leaf paths persist. -/
theorem leafPaths_foldl_mono (mapping : List (String × String)) (exclude : List String) :
    ∀ (ps : List (String × String)) (acc : Pred) (s : String),
      s ∈ leafPaths acc →
      s ∈ leafPaths (ps.foldl
        (fun acc kv => if kv.1 ∈ exclude then acc else .and acc (compile_param mapping kv.1 kv.2))
        acc) := by
  intro ps
  induction ps with
  | nil => intro acc s hs; simpa using hs
  | cons hd tl ih =>
    intro acc s hs
    simp only [List.foldl_cons]
    apply ih
    by_cases hex : hd.1 ∈ exclude
    · simpa [hex] using hs
    · simp [hex, leafPaths, hs]

/-- Every non-excluded parameter contributes its leaf path to the compiled
conjunction. -/
theorem mem_leafPaths_build (mapping : List (String × String)) (exclude : List String) :
    ∀ (ps : List (String × String)) (acc : Pred) (k v : String),
      (k, v) ∈ ps → k ∉ exclude →
      mapField mapping (fieldOf k) ∈ leafPaths (ps.foldl
        (fun acc kv => if kv.1 ∈ exclude then acc else .and acc (compile_param mapping kv.1 kv.2))
        acc) := by
  intro ps
  induction ps with
  | nil => intro acc k v hmem; simp at hmem
  | cons hd tl ih =>
    intro acc k v hmem hex
    rcases List.mem_cons.mp hmem with heq | htl
    · subst heq
      simp only [List.foldl_cons]
      apply leafPaths_foldl_mono
      simp [hex, leafPaths, compile_param_leafPaths]
    · simp only [List.foldl_cons]
      exact ih _ k v htl hex

/-- C5: a non-reserved query parameter whose field name has no entry in the
field-mapping allowlist is neither rejected nor altered: its own compiled
predicate consists of one leaf whose schema path is the field name itself,
and that path occurs among the leaf paths of the full compiled filter. -/
theorem unmapped_field_passthrough (params : List (String × String))
    (exclude : List String) (mapping : List (String × String)) (k v : String)
    (hmem : (k, v) ∈ params) (hex : k ∉ exclude)
    (hunmapped : mapping.find? (fun e => e.1 == fieldOf k) = none) :
    leafPaths (compile_param mapping k v) = [fieldOf k] ∧
    fieldOf k ∈ leafPaths (build_dynamic_filters params exclude mapping) := by
  have hmf := mapField_unmapped mapping (fieldOf k) hunmapped
  constructor
  · rw [compile_param_leafPaths, hmf]
  · have := mem_leafPaths_build mapping exclude params .tru k v hmem hex
    rw [hmf] at this
    exact this

/-- C5 witness: `foo__gt=5` under the endpoints shared field mapping — the
field `foo` is not in the allowlist and reaches the predicate unchanged. -/
theorem unmapped_field_passthrough_witness :
    leafPaths (compile_param field_mapping "foo__gt" "5") = [fieldOf "foo__gt"] ∧
    fieldOf "foo__gt" ∈ leafPaths
      (build_dynamic_filters [("range", "month"), ("foo__gt", "5")] ["range"] field_mapping) :=
  unmapped_field_passthrough [("range", "month"), ("foo__gt", "5")] ["range"] field_mapping
    "foo__gt" "5" (by decide) (by decide) (by decide)

/-! ## Grouped-count lemmas -/

theorem mem_dedupFirstAux (k : Nat) :
    ∀ (l seen : List Nat), k ∈ dedupFirstAux seen l ↔ k ∈ l ∧ k ∉ seen := by
  intro l
  induction l with
  | nil => intro seen; simp [dedupFirstAux]
  | cons a rest ih =>
    intro seen
    by_cases ha : a ∈ seen
    · simp only [dedupFirstAux, if_pos ha, ih, List.mem_cons]
      constructor
      · rintro ⟨h1, h2⟩; exact ⟨Or.inr h1, h2⟩
      · rintro ⟨rfl | h1, h2⟩
        · exact absurd ha h2
        · exact ⟨h1, h2⟩
    · by_cases hak : k = a
      · subst hak
        simp [dedupFirstAux, if_neg ha, ha]
      · simp [dedupFirstAux, if_neg ha, ih, List.mem_cons, hak]

theorem mem_dedupFirst (k : Nat) (l : List Nat) : k ∈ dedupFirst l ↔ k ∈ l := by
  simp [dedupFirst, mem_dedupFirstAux]

/-- Looking up a key in a list of `(key, c key)` pairs. -/
theorem find_keyed_map (c : Nat → Nat) (k : Nat) :
    ∀ keys : List Nat,
      (keys.map (fun x => (x, c x))).find? (fun e => e.1 == k) =
        if k ∈ keys then some (k, c k) else none := by
  intro keys
  induction keys with
  | nil => simp
  | cons a ks ih =>
    simp only [List.map_cons, List.find?_cons]
    by_cases hak : a = k
    · subst hak
      simp
    · have : ((a, c a).1 == k) = false := by simp [hak]
      simp only [this, ih, List.mem_cons]
      by_cases hk : k ∈ ks <;> simp [hk, hak, Ne.symm hak]

theorem find_groupCount (l : List α) (f : α → Nat) (k : Nat) :
    (groupCount l f).find? (fun e => e.1 == k) =
      if k ∈ l.map f then some (k, l.countP (fun a => f a == k)) else none := by
  unfold groupCount
  rw [find_keyed_map]
  simp [mem_dedupFirst]

theorem groupCount_keys (l : List α) (f : α → Nat) :
    (groupCount l f).map (fun e => e.1) = dedupFirst (l.map f) := by
  simp [groupCount, List.map_map, Function.comp_def]

theorem countP_key_eq_zero (l : List α) (f : α → Nat) (k : Nat)
    (h : k ∉ l.map f) : l.countP (fun a => f a == k) = 0 := by
  rw [List.countP_eq_zero]
  intro a ha
  simp only [beq_iff_eq]
  intro hfa
  exact h (hfa ▸ List.mem_map_of_mem f ha)

theorem countP_key_pos (l : List α) (f : α → Nat) (k : Nat)
    (h : k ∈ l.map f) : 0 < l.countP (fun a => f a == k) := by
  rw [List.countP_pos_iff]
  obtain ⟨a, ha, hfa⟩ := List.mem_map.mp h
  exact ⟨a, ha, by simp [hfa]⟩

/-! ## Claim C2: the group-by merge rule -/

/-- C2: the group-by output equals the map, over the union of the group keys
appearing in either grouped result, of the row whose `y` and `z` are the
per-group blog count and view count over the respective querysets (zero for
a key absent from one side), with the rows where both are zero dropped; and
every emitted row has `y ≥ 0`, `z ≥ 0` and not both zero. -/
theorem group_merge_union (db : DB) (p : Blog → Bool) (start : Nat)
    (keyOf : Blog → Nat) (labelOf : Nat → String) (r : Row) :
    groupByMode db p start keyOf labelOf =
      ((dedupFirst ((groupCount (blogsQs db p) keyOf).map (fun e => e.1) ++
          (groupCount (gviewsQs db p start) (viewKeyOf db keyOf)).map (fun e => e.1))).map
        (fun k =>
          { x := if k ∈ (blogsQs db p).map keyOf then labelOf k else ""
            y := (blogsQs db p).countP (fun b => keyOf b == k)
            z := (gviewsQs db p start).countP (fun v => viewKeyOf db keyOf v == k) })).filter
        (fun r => 0 < r.y || 0 < r.z) ∧
    (r ∈ groupByMode db p start keyOf labelOf →
      0 ≤ r.y ∧ 0 ≤ r.z ∧ ¬(r.y = 0 ∧ r.z = 0)) := by
  constructor
  · unfold groupByMode
    dsimp only
    congr 1
    apply List.map_congr_left
    intro k _
    have hb := find_groupCount (blogsQs db p) keyOf k
    have hv := find_groupCount (gviewsQs db p start) (viewKeyOf db keyOf) k
    by_cases hkb : k ∈ (blogsQs db p).map keyOf <;>
      by_cases hkv : k ∈ (gviewsQs db p start).map (viewKeyOf db keyOf) <;>
        simp [hb, hv, hkb, hkv, countP_key_eq_zero]
  · intro hr
    unfold groupByMode at hr
    have := (List.mem_filter.mp hr).2
    simp only [Bool.or_eq_true, decide_eq_true_eq] at this
    omega

/-- C2 witness: the merge-rule equality and the no-zero-row property at the
concrete two-country database, country grouping. -/
theorem group_merge_union_witness :
    groupByMode dbW (fun _ => true) 90 (blogCountryKey dbW) (countryLabel dbW) =
      ((dedupFirst ((groupCount (blogsQs dbW (fun _ => true)) (blogCountryKey dbW)).map (fun e => e.1) ++
          (groupCount (gviewsQs dbW (fun _ => true) 90) (viewKeyOf dbW (blogCountryKey dbW))).map (fun e => e.1))).map
        (fun k =>
          { x := if k ∈ (blogsQs dbW (fun _ => true)).map (blogCountryKey dbW) then countryLabel dbW k else ""
            y := (blogsQs dbW (fun _ => true)).countP (fun b => blogCountryKey dbW b == k)
            z := (gviewsQs dbW (fun _ => true) 90).countP (fun v => viewKeyOf dbW (blogCountryKey dbW) v == k) })).filter
        (fun r => 0 < r.y || 0 < r.z) ∧
    (0 ≤ (⟨"USA", 1, 2⟩ : Row).y ∧ 0 ≤ (⟨"USA", 1, 2⟩ : Row).z ∧
      ¬((⟨"USA", 1, 2⟩ : Row).y = 0 ∧ (⟨"USA", 1, 2⟩ : Row).z = 0)) := by
  have h := group_merge_union dbW (fun _ => true) 90 (blogCountryKey dbW) (countryLabel dbW)
    ⟨"USA", 1, 2⟩
  exact ⟨h.1, h.2 (by decide)⟩

/-! ## Claim C10: every group-by row counts at least one blog -/

/-- Membership in a filtered list gives membership in the base list. -/
theorem mem_of_mem_blogsQs (db : DB) (p : Blog → Bool) (b : Blog)
    (h : b ∈ blogsQs db p) : b ∈ db.blogs :=
  (List.mem_filter.mp h).1

/-- Under unique blog ids, the blog a queryset view joins to is the very
blog that witnessed the `blog__in` membership test. -/
theorem blogOfView_mem_blogsQs (db : DB) (p : Blog → Bool) (start : Nat)
    (hids : (db.blogs.map (fun b => b.id)).Nodup)
    (v : View) (hv : v ∈ gviewsQs db p start) :
    blogOfView db v ∈ blogsQs db p := by
  have hcond := (List.mem_filter.mp hv).2
  simp only [Bool.and_eq_true, List.any_eq_true, beq_iff_eq] at hcond
  obtain ⟨-, b, hb, hbid⟩ := hcond
  have hbdb : b ∈ db.blogs := mem_of_mem_blogsQs db p b hb
  have hfind : ∃ b0, blogById db v.blogId = some b0 := by
    rw [blogById]
    have : (db.blogs.find? (fun x => x.id == v.blogId)).isSome := by
      rw [List.find?_isSome]
      exact ⟨b, hbdb, by simp [hbid]⟩
    exact Option.isSome_iff_exists.mp this
  obtain ⟨b0, hb0⟩ := hfind
  have hb0mem : b0 ∈ db.blogs := List.mem_of_find?_eq_some hb0
  have hb0id : b0.id = v.blogId := by
    have := List.find?_some hb0
    simpa using this
  have : b0 = b := by
    have hinj := List.inj_on_of_nodup_map hids
    exact hinj hb0mem hbdb (by rw [hb0id, hbid])
  rw [blogOfView, hb0, Option.getD_some, this]
  exact hb

/-- C10: with unique blog primary keys, every row the group-by mode emits
has blog count `y ≥ 1`: the view queryset is restricted to blogs of the
filtered blog set, so every view-side group key is also a blog-side group
key, whose count is positive. -/
theorem group_row_has_blog (db : DB) (p : Blog → Bool) (start : Nat)
    (keyOf : Blog → Nat) (labelOf : Nat → String) (r : Row)
    (hids : (db.blogs.map (fun b => b.id)).Nodup)
    (hr : r ∈ groupByMode db p start keyOf labelOf) :
    1 ≤ r.y := by
  unfold groupByMode at hr
  have hr2 := (List.mem_filter.mp hr).1
  obtain ⟨k, hk, hrow⟩ := List.mem_map.mp hr2
  rw [mem_dedupFirst, List.mem_append, groupCount_keys, groupCount_keys,
    mem_dedupFirst, mem_dedupFirst] at hk
  have hkb : k ∈ (blogsQs db p).map keyOf := by
    rcases hk with hk | hk
    · exact hk
    · obtain ⟨v, hv, hvk⟩ := List.mem_map.mp hk
      have := blogOfView_mem_blogsQs db p start hids v hv
      exact hvk ▸ List.mem_map_of_mem keyOf this
  have hy : r.y = (blogsQs db p).countP (fun b => keyOf b == k) := by
    rw [← hrow]
    simp [find_groupCount, hkb]
  rw [hy]
  exact countP_key_pos _ _ _ hkb

/-- C10 witness: at the concrete database (distinct blog ids) the USA row
counts one blog. -/
theorem group_row_has_blog_witness :
    1 ≤ (⟨"USA", 1, 2⟩ : Row).y :=
  group_row_has_blog dbW (fun _ => true) 90 (blogCountryKey dbW) (countryLabel dbW)
    ⟨"USA", 1, 2⟩ (by decide) (by decide)

/-! ## Claim C4: top-N truncation and descending order -/

theorem mem_insertDesc (a : Nat × Nat) :
    ∀ (l : List (Nat × Nat)) (x : Nat × Nat), x ∈ insertDesc a l ↔ x = a ∨ x ∈ l := by
  intro l
  induction l with
  | nil => intro x; simp [insertDesc]
  | cons b t ih =>
    intro x
    unfold insertDesc
    by_cases hb : b.2 ≤ a.2
    · simp [hb, List.mem_cons]
    · simp only [if_neg hb, List.mem_cons, ih]
      tauto

theorem pairwise_insertDesc (a : Nat × Nat) :
    ∀ l : List (Nat × Nat), l.Pairwise (fun u w => w.2 ≤ u.2) →
      (insertDesc a l).Pairwise (fun u w => w.2 ≤ u.2) := by
  intro l
  induction l with
  | nil => intro _; simp [insertDesc]
  | cons b t ih =>
    intro hp
    have hbt := List.pairwise_cons.mp hp
    unfold insertDesc
    by_cases hb : b.2 ≤ a.2
    · rw [if_pos hb]
      refine List.pairwise_cons.mpr ⟨?_, hp⟩
      intro w hw
      rcases List.mem_cons.mp hw with rfl | hw
      · exact hb
      · exact Nat.le_trans (hbt.1 w hw) hb
    · rw [if_neg hb]
      refine List.pairwise_cons.mpr ⟨?_, ih hbt.2⟩
      intro w hw
      rcases (mem_insertDesc a t w).mp hw with rfl | hw
      · exact Nat.le_of_lt (Nat.lt_of_not_le hb)
      · exact hbt.1 w hw

theorem pairwise_sortDesc :
    ∀ l : List (Nat × Nat), (sortDesc l).Pairwise (fun u w => w.2 ≤ u.2) := by
  intro l
  induction l with
  | nil => simp [sortDesc]
  | cons a t ih => exact pairwise_insertDesc a (sortDesc t) ih

theorem topRanked_length (l : List α) (f : α → Nat) : (topRanked l f).length ≤ 10 :=
  List.length_take_le 10 _

theorem topRanked_pairwise (l : List α) (f : α → Nat) :
    (topRanked l f).Pairwise (fun u w => w.2 ≤ u.2) :=
  (pairwise_sortDesc (groupCount l f)).sublist (List.take_sublist 10 _)

/-- View counts of the mapped rows are the counts of the ranked pairs. -/
theorem top_rows_y_eq (tr : List (Nat × Nat)) (mk : Nat × Nat → Row)
    (hmk : ∀ t, (mk t).y = t.2) :
    (tr.map mk).map (fun r => r.y) = tr.map (fun t => t.2) := by
  rw [List.map_map]
  exact List.map_congr_left (fun t _ => hmk t)

/-- C4: each of the three top-N branches returns at most 10 rows, with the
view counts `y` in descending order. -/
theorem top_ten_sorted (db : DB) (p : Blog → Bool) (start : Nat) :
    ((topUserRows db p start).length ≤ 10 ∧
      ((topUserRows db p start).map (fun r => r.y)).Pairwise (fun a b => b ≤ a)) ∧
    ((topCountryRows db p start).length ≤ 10 ∧
      ((topCountryRows db p start).map (fun r => r.y)).Pairwise (fun a b => b ≤ a)) ∧
    ((topBlogRows db p start).length ≤ 10 ∧
      ((topBlogRows db p start).map (fun r => r.y)).Pairwise (fun a b => b ≤ a)) := by
  refine ⟨⟨?_, ?_⟩, ⟨?_, ?_⟩, ⟨?_, ?_⟩⟩
  · rw [topUserRows, List.length_map]; exact topRanked_length _ _
  · rw [topUserRows, top_rows_y_eq _ _ (fun t => rfl), List.pairwise_map]
    exact topRanked_pairwise _ _
  · rw [topCountryRows, List.length_map]; exact topRanked_length _ _
  · rw [topCountryRows, top_rows_y_eq _ _ (fun t => rfl), List.pairwise_map]
    exact topRanked_pairwise _ _
  · rw [topBlogRows, List.length_map]; exact topRanked_length _ _
  · rw [topBlogRows, List.map_map]
    have : ((fun r : TopBlogRow => r.y) ∘ fun t : Nat × Nat =>
        TopBlogRow.mk (((blogById db t.1).map (fun b => b.title)).getD "") t.2
          (userLabel db (((blogById db t.1).map (fun b => b.authorId)).getD 0))) =
        fun t => t.2 := rfl
    rw [this, List.pairwise_map]
    exact topRanked_pairwise _ _

/-! ## Claim C6: the performance view set is gated by blog creation -/

/-- Every blog of the performance blog queryset lies in the database and
was created at or after the window start. -/
theorem perfBlogsQs_created (db : DB) (p : Blog → Bool) (start : Nat)
    (u : Option String) (b : Blog) (hb : b ∈ perfBlogsQs db p start u) :
    b ∈ db.blogs ∧ start ≤ b.createdAt := by
  have hbase : ∀ x : Blog, x ∈ (db.blogs.filter (fun c => start ≤ c.createdAt)).filter p →
      x ∈ db.blogs ∧ start ≤ x.createdAt := by
    intro x hx
    have h1 := (List.mem_filter.mp hx).1
    have h2 := (List.mem_filter.mp h1).2
    exact ⟨(List.mem_filter.mp h1).1, by simpa using h2⟩
  unfold perfBlogsQs at hb
  cases u with
  | none => exact hbase b hb
  | some s =>
    dsimp only at hb
    by_cases hs : s = ""
    · rw [if_pos hs] at hb
      exact hbase b hb
    · rw [if_neg hs] at hb
      exact hbase b (List.mem_filter.mp hb).1

/-- C6: a view whose timestamp lies inside the comparison window but whose
blog was created before the window start is excluded from the performance
view queryset (given unique blog primary keys), hence contributes to no
per-period bucket. -/
theorem stale_blog_view_excluded (db : DB) (p : Blog → Bool) (start : Nat)
    (u : Option String) (v : View) (b : Blog)
    (hids : (db.blogs.map (fun x => x.id)).Nodup)
    (hv : v ∈ db.views) (hts : start ≤ v.timestamp)
    (hb : b ∈ db.blogs) (hbid : b.id = v.blogId)
    (hold : b.createdAt < start) :
    v ∉ perfViewsQs db p start u := by
  intro hmem
  have hcond := (List.mem_filter.mp hmem).2
  simp only [Bool.and_eq_true, List.any_eq_true, beq_iff_eq] at hcond
  obtain ⟨-, b2, hb2, hb2id⟩ := hcond
  obtain ⟨hb2db, hb2created⟩ := perfBlogsQs_created db p start u b2 hb2
  have : b2 = b := by
    have hinj := List.inj_on_of_nodup_map hids
    exact hinj hb2db hb (by rw [hb2id, hbid])
  subst this
  exact Nat.not_le.mpr hold hb2created

/-- C6 witness: a view at instant 12 (inside a window starting at 10) of a
blog created at 5 is not in the performance view queryset. -/
theorem stale_blog_view_excluded_witness :
    (⟨9, 3, none, 12⟩ : View) ∉
      perfViewsQs ⟨[], [], [⟨3, "t", "c", 1, 5⟩], [⟨9, 3, none, 12⟩]⟩ (fun _ => true) 10 none :=
  stale_blog_view_excluded ⟨[], [], [⟨3, "t", "c", 1, 5⟩], [⟨9, 3, none, 12⟩]⟩
    (fun _ => true) 10 none ⟨9, 3, none, 12⟩ ⟨3, "t", "c", 1, 5⟩
    (by decide) (by decide) (by decide) (by decide) (by decide) (by decide)

/-! ## Claim C1: percent change between consecutive output rows -/

theorem round2_zero : round2 0 = 0 := by
  have h1 : roundHalfEven ((0 : ℚ) * 100) = 0 := by
    norm_num [roundHalfEven]
  rw [round2, h1]
  norm_num

theorem perfZ_some (pv y : Nat) :
    perfZ (some pv) y = if pv = 0 then 0 else (((y : ℚ) - (pv : ℚ)) / (pv : ℚ)) * 100 := by
  by_cases h : pv = 0 <;> simp [perfZ, h]

/-- The `y` of each output row is the looked-up view count of its period. -/
theorem perfGo_y_map (bp vp : List (Nat × Nat)) :
    ∀ (pers : List Nat) (prev : Option Nat),
      (perfGo bp vp pers prev).map (fun r => r.y) =
        pers.map (fun per => ((vp.find? (fun e => e.1 == per)).map (fun e => e.2)).getD 0) := by
  intro pers
  induction pers with
  | nil => intro prev; rfl
  | cons per rest ih =>
    intro prev
    simp only [perfGo, List.map_cons, ih]

/-- The first output row of the loop reports the percent change against the
incoming `prev_views`. -/
theorem perfGo_head_z (bp vp : List (Nat × Nat)) (per : Nat) (rest : List Nat)
    (prev : Option Nat) :
    ((perfGo bp vp (per :: rest) prev).map (fun r => r.z))[0]? =
      some (round2 (perfZ prev
        (((vp.find? (fun e => e.1 == per)).map (fun e => e.2)).getD 0))) := by
  simp only [perfGo, List.map_cons, List.getElem?_cons_zero]

/-- The first output row of the loop carries its period view count. -/
theorem perfGo_head_y (bp vp : List (Nat × Nat)) (per : Nat) (rest : List Nat)
    (prev : Option Nat) :
    ((perfGo bp vp (per :: rest) prev).map (fun r => r.y))[0]? =
      some (((vp.find? (fun e => e.1 == per)).map (fun e => e.2)).getD 0) := by
  simp only [perfGo, List.map_cons, List.getElem?_cons_zero]

/-- Each later row reports the change against the view count of the
immediately preceding output row. -/
theorem perfGo_z_succ (bp vp : List (Nat × Nat)) :
    ∀ (pers : List Nat) (prev : Option Nat) (i yp yc : Nat),
      ((perfGo bp vp pers prev).map (fun r => r.y))[i]? = some yp →
      ((perfGo bp vp pers prev).map (fun r => r.y))[i + 1]? = some yc →
      ((perfGo bp vp pers prev).map (fun r => r.z))[i + 1]? =
        some (round2 (perfZ (some yp) yc)) := by
  intro pers
  induction pers with
  | nil =>
    intro prev i yp yc h1 h2
    simp [perfGo] at h1
  | cons per rest ih =>
    intro prev i yp yc h1 h2
    match i with
    | 0 =>
      rw [perfGo_head_y] at h1
      have hyp : yp = ((vp.find? (fun e => e.1 == per)).map (fun e => e.2)).getD 0 :=
        (Option.some.injEq _ _ ▸ h1).symm
      cases rest with
      | nil => simp [perfGo] at h2
      | cons per2 rest2 =>
        have hstep : perfGo bp vp (per :: per2 :: rest2) prev =
            { x := toString per ++ " (" ++
                toString (((bp.find? (fun e => e.1 == per)).map (fun e => e.2)).getD 0) ++ " blogs)",
              y := ((vp.find? (fun e => e.1 == per)).map (fun e => e.2)).getD 0,
              z := round2 (perfZ prev (((vp.find? (fun e => e.1 == per)).map (fun e => e.2)).getD 0)) } ::
              perfGo bp vp (per2 :: rest2)
                (some (((vp.find? (fun e => e.1 == per)).map (fun e => e.2)).getD 0)) := rfl
        rw [hstep] at h2 ⊢
        rw [List.map_cons, List.getElem?_cons_succ] at h2 ⊢
        rw [perfGo_head_y] at h2
        have hyc : yc = ((vp.find? (fun e => e.1 == per2)).map (fun e => e.2)).getD 0 :=
          (Option.some.injEq _ _ ▸ h2).symm
        rw [perfGo_head_z, hyp, hyc]
    | j + 1 =>
      have hstep : ∀ g : PerfRow → Nat,
          ((perfGo bp vp (per :: rest) prev).map (fun r => g r))[j + 1]? =
            ((perfGo bp vp rest
              (some (((vp.find? (fun e => e.1 == per)).map (fun e => e.2)).getD 0))).map
                (fun r => g r))[j]? := by
        intro g
        conv_lhs => rw [show perfGo bp vp (per :: rest) prev = _ :: _ from rfl]
        rw [List.map_cons, List.getElem?_cons_succ]
      rw [hstep] at h1
      have hstep2 : ∀ g : PerfRow → Nat,
          ((perfGo bp vp (per :: rest) prev).map (fun r => g r))[j + 2]? =
            ((perfGo bp vp rest
              (some (((vp.find? (fun e => e.1 == per)).map (fun e => e.2)).getD 0))).map
                (fun r => g r))[j + 1]? := by
        intro g
        conv_lhs => rw [show perfGo bp vp (per :: rest) prev = _ :: _ from rfl]
        rw [List.map_cons, List.getElem?_cons_succ]
      rw [hstep2] at h2
      have hstepz :
          ((perfGo bp vp (per :: rest) prev).map (fun r => r.z))[j + 2]? =
            ((perfGo bp vp rest
              (some (((vp.find? (fun e => e.1 == per)).map (fun e => e.2)).getD 0))).map
                (fun r => r.z))[j + 1]? := by
        conv_lhs => rw [show perfGo bp vp (per :: rest) prev = _ :: _ from rfl]
        rw [List.map_cons, List.getElem?_cons_succ]
      rw [hstepz]
      exact ih _ j yp yc h1 h2

/-- The first output row of the whole pipeline has `z = 0` (`prev_views`
starts as `None`). -/
theorem perfGo_first_z (bp vp : List (Nat × Nat)) (pers : List Nat) (q : ℚ)
    (h : ((perfGo bp vp pers none).map (fun r => r.z))[0]? = some q) : q = 0 := by
  cases pers with
  | nil => simp [perfGo] at h
  | cons per rest =>
    rw [perfGo_head_z] at h
    have : round2 (perfZ none (((vp.find? (fun e => e.1 == per)).map (fun e => e.2)).getD 0)) = q :=
      Option.some.injEq _ _ ▸ h
    rw [← this]
    exact round2_zero

/-- C1: in the performance output, the first row has `z = 0`; every later
row has `z = 0` when the immediately preceding output row has view count 0,
and otherwise `z = round(((y_curr - y_prev) / y_prev) * 100, 2)`. -/
theorem perf_percent_change (trunc : Nat → Nat) (db : DB) (p : Blog → Bool)
    (start : Nat) (u : Option String) :
    (∀ q : ℚ, ((perfRows trunc db p start u).map (fun r => r.z))[0]? = some q → q = 0) ∧
    (∀ (i yp yc : Nat),
      ((perfRows trunc db p start u).map (fun r => r.y))[i]? = some yp →
      ((perfRows trunc db p start u).map (fun r => r.y))[i + 1]? = some yc →
      ((perfRows trunc db p start u).map (fun r => r.z))[i + 1]? =
        some (if yp = 0 then 0 else round2 ((((yc : ℚ) - (yp : ℚ)) / (yp : ℚ)) * 100))) := by
  constructor
  · intro q hq
    exact perfGo_first_z _ _ _ q hq
  · intro i yp yc h1 h2
    unfold perfRows at h1 h2 ⊢
    dsimp only at h1 h2 ⊢
    have := perfGo_z_succ _ _ _ none i yp yc h1 h2
    rw [this, perfZ_some]
    by_cases hyp : yp = 0
    · rw [if_pos hyp, if_pos hyp, round2_zero]
    · rw [if_neg hyp, if_neg hyp]

/-- C1 witness: at the concrete database with identity truncation, rows 2
and 3 have view counts 2 and 1, and row 3 reports the rounded percent
change against row 2. -/
theorem perf_percent_change_witness :
    ((perfRows (fun n => n) dbW (fun _ => true) 0 none).map (fun r => r.y))[2]? = some 2 ∧
    ((perfRows (fun n => n) dbW (fun _ => true) 0 none).map (fun r => r.y))[3]? = some 1 ∧
    ((perfRows (fun n => n) dbW (fun _ => true) 0 none).map (fun r => r.z))[3]? =
      some (if (2 : Nat) = 0 then 0 else round2 ((((1 : Nat) : ℚ) - ((2 : Nat) : ℚ)) / ((2 : Nat) : ℚ) * 100)) := by
  refine ⟨by decide, by decide, ?_⟩
  exact (perf_percent_change (fun n => n) dbW (fun _ => true) 0 none).2 2 2 1
    (by decide) (by decide)

/-! ## Claim C7: the calendar range resolver -/

theorem daysInMonth_pos (y m : Nat) : 1 ≤ daysInMonth y m := by
  unfold daysInMonth
  split
  · split <;> omega
  · split <;> omega

theorem daysInMonth_twelve (y : Nat) : daysInMonth y 12 = 31 := rfl

theorem daysBeforeMonth_one (y : Nat) : daysBeforeMonth y 1 = 0 := rfl

theorem toOrdinal_pos (d : Date) (h : d.Valid) : 1 ≤ toOrdinal d := by
  obtain ⟨-, -, -, h4, -⟩ := h
  unfold toOrdinal
  omega

/-- Cumulative month lengths decompose month by month. -/
theorem daysBeforeMonth_step (y m : Nat) (h2 : 2 ≤ m) (h12 : m ≤ 12) :
    daysBeforeMonth y m = daysBeforeMonth y (m - 1) + daysInMonth y (m - 1) := by
  by_cases hl : isLeap y = true <;>
    interval_cases m <;> simp [daysBeforeMonth, daysInMonth, hl]

/-- `daysBeforeMonth` up to December plus December itself is the year
length, exposing the leap-day correction. -/
theorem daysBeforeMonth_twelve (y : Nat) :
    daysBeforeMonth y 12 = 334 + (if isLeap y then 1 else 0) := by
  by_cases hl : isLeap y = true <;> simp [daysBeforeMonth, hl]

/-- The leap-year count below year `n + 1` exceeds the one below `n` by the
length of year `n`. -/
theorem year_step (n : Nat) (h : 1 ≤ n) :
    365 * n + n / 4 - n / 100 + n / 400 =
      (365 * (n - 1) + (n - 1) / 4 - (n - 1) / 100 + (n - 1) / 400) + 365 +
        (if isLeap n then 1 else 0) := by
  by_cases hc400 : n % 400 = 0
  · have hc4 : n % 4 = 0 := by omega
    have hc100 : n % 100 = 0 := by omega
    have hleap : isLeap n = true := by simp [isLeap, hc400]
    rw [if_pos hleap]
    have e4 : n / 4 = (n - 1) / 4 + 1 := by omega
    have e100 : n / 100 = (n - 1) / 100 + 1 := by omega
    have e400 : n / 400 = (n - 1) / 400 + 1 := by omega
    rw [e4, e100, e400]
    clear e4 e100 e400 hleap hc400 hc4 hc100
    omega
  · by_cases hc100 : n % 100 = 0
    · have hc4 : n % 4 = 0 := by omega
      have hleap : isLeap n = false := by simp [isLeap, hc100, hc400]
      rw [if_neg (by simp [hleap])]
      have e4 : n / 4 = (n - 1) / 4 + 1 := by omega
      have e100 : n / 100 = (n - 1) / 100 + 1 := by omega
      have e400 : n / 400 = (n - 1) / 400 := by omega
      rw [e4, e100, e400]
      clear e4 e100 e400 hleap hc400 hc4 hc100
      omega
    · by_cases hc4 : n % 4 = 0
      · have hleap : isLeap n = true := by simp [isLeap, hc4, hc100]
        rw [if_pos hleap]
        have e4 : n / 4 = (n - 1) / 4 + 1 := by omega
        have e100 : n / 100 = (n - 1) / 100 := by omega
        have e400 : n / 400 = (n - 1) / 400 := by omega
        rw [e4, e100, e400]
        clear e4 e100 e400 hleap hc400 hc100
        omega
      · have hleap : isLeap n = false := by simp [isLeap, hc4, hc400]
        rw [if_neg (by simp [hleap])]
        have e4 : n / 4 = (n - 1) / 4 := by omega
        have e100 : n / 100 = (n - 1) / 100 := by omega
        have e400 : n / 400 = (n - 1) / 400 := by omega
        rw [e4, e100, e400]
        clear e4 e100 e400 hleap hc400 hc100
        omega

/-- Stepping back one day: validity is preserved and the ordinal drops by
one (for any valid date after 0001-01-01). -/
theorem Date.valid_mk (y m dd : Nat) :
    (Date.mk y m dd).Valid ↔ 1 ≤ y ∧ 1 ≤ m ∧ m ≤ 12 ∧ 1 ≤ dd ∧ dd ≤ daysInMonth y m :=
  Iff.rfl

theorem toOrdinal_mk (y m dd : Nat) :
    toOrdinal ⟨y, m, dd⟩ =
      365 * (y - 1) + (y - 1) / 4 - (y - 1) / 100 + (y - 1) / 400 + daysBeforeMonth y m + dd :=
  rfl

theorem prevDay_spec (d : Date) (hv : d.Valid) (h2 : 2 ≤ toOrdinal d) :
    (prevDay d).Valid ∧ toOrdinal (prevDay d) + 1 = toOrdinal d := by
  obtain ⟨hy, hm1, hm12, hd1, hdm⟩ := hv
  have hord : toOrdinal d = 365 * (d.year - 1) + (d.year - 1) / 4 - (d.year - 1) / 100 +
      (d.year - 1) / 400 + daysBeforeMonth d.year d.month + d.day := rfl
  unfold prevDay
  by_cases hd2 : 2 ≤ d.day
  · rw [if_pos hd2]
    refine ⟨(Date.valid_mk _ _ _).mpr ⟨hy, hm1, hm12, by omega, by omega⟩, ?_⟩
    rw [toOrdinal_mk, hord]
    omega
  · rw [if_neg hd2]
    have hd1e : d.day = 1 := by omega
    by_cases hm2 : 2 ≤ d.month
    · rw [if_pos hm2]
      have hstep := daysBeforeMonth_step d.year d.month hm2 hm12
      have hpos := daysInMonth_pos d.year (d.month - 1)
      refine ⟨(Date.valid_mk _ _ _).mpr ⟨hy, by omega, by omega, hpos, Nat.le_refl _⟩, ?_⟩
      rw [toOrdinal_mk, hord, hd1e, hstep]
      omega
    · rw [if_neg hm2]
      have hm1e : d.month = 1 := by omega
      have h2e := h2
      rw [hord, hm1e, hd1e, daysBeforeMonth_one] at h2e
      have hy2 : 2 ≤ d.year := by omega
      refine ⟨(Date.valid_mk _ _ _).mpr
        ⟨by omega, by omega, by omega, by omega, by rw [daysInMonth_twelve]⟩, ?_⟩
      rw [toOrdinal_mk, hord, hm1e, hd1e, daysBeforeMonth_one, daysBeforeMonth_twelve]
      have hys := year_step (d.year - 1) (by omega)
      generalize (if isLeap (d.year - 1) then (1 : Nat) else 0) = l at hys ⊢
      omega

/-- Stepping back `n` days from a valid date that has at least `n` earlier
days: validity is preserved and the ordinal drops by `n`. -/
theorem subDays_spec (d : Date) : ∀ n : Nat, d.Valid → n + 1 ≤ toOrdinal d →
    (subDays d n).Valid ∧ toOrdinal (subDays d n) = toOrdinal d - n := by
  intro n
  induction n with
  | zero => intro hv _; exact ⟨hv, by simp [subDays]⟩
  | succ m ih =>
    intro hv h
    have hm := ih hv (by omega)
    have h2 : 2 ≤ toOrdinal (subDays d m) := by omega
    have hp := prevDay_spec (subDays d m) hm.1 h2
    rw [subDays]
    exact ⟨hp.1, by omega⟩

/-- C7: for every valid call instant, the range resolver yields the Monday
at 00:00:00 of the current ISO week for `week` (a Monday, all time fields
zero, at most 6 days back), the first of the current month at 00:00:00 for
`month`, January 1 of the current year at 00:00:00 for `year`, and for any
other token the same value as `month`. -/
theorem range_start_calendar (t : String) (now : DateTime) (h : now.Valid) :
    ((get_range_start "week" now).date.Valid ∧
      (get_range_start "week" now).date.weekday = 0 ∧
      (get_range_start "week" now).hour = 0 ∧ (get_range_start "week" now).minute = 0 ∧
      (get_range_start "week" now).second = 0 ∧ (get_range_start "week" now).microsecond = 0 ∧
      toOrdinal (get_range_start "week" now).date ≤ toOrdinal now.date ∧
      toOrdinal now.date < toOrdinal (get_range_start "week" now).date + 7) ∧
    get_range_start "month" now = ⟨now.year, now.month, 1, 0, 0, 0, 0⟩ ∧
    get_range_start "year" now = ⟨now.year, 1, 1, 0, 0, 0, 0⟩ ∧
    (t ∉ (["month", "week", "year"] : List String) →
      get_range_start t now = get_range_start "month" now) := by
  have hval : now.date.Valid := h
  have hord1 : 1 ≤ toOrdinal now.date := toOrdinal_pos _ hval
  have hwd : now.date.weekday ≤ toOrdinal now.date - 1 ∧ now.date.weekday < 7 := by
    unfold Date.weekday
    omega
  have hsub := subDays_spec now.date now.date.weekday hval (by omega)
  have hw : get_range_start "week" now =
      ⟨(subDays now.date now.date.weekday).year, (subDays now.date now.date.weekday).month,
        (subDays now.date now.date.weekday).day, 0, 0, 0, 0⟩ := by
    simp [get_range_start, DateTime.weekday]
  have heta : (get_range_start "week" now).date = subDays now.date now.date.weekday := by
    rw [hw]
    exact rfl
  refine ⟨⟨?_, ?_, ?_, ?_, ?_, ?_, ?_, ?_⟩, ?_, ?_, ?_⟩
  · rw [heta]; exact hsub.1
  · rw [heta]
    have e1 : (subDays now.date now.date.weekday).weekday =
        (toOrdinal (subDays now.date now.date.weekday) + 6) % 7 := rfl
    have e2 : now.date.weekday = (toOrdinal now.date + 6) % 7 := rfl
    rw [e1, hsub.2, e2]
    omega
  · rw [hw]
  · rw [hw]
  · rw [hw]
  · rw [hw]
  · rw [heta, hsub.2]; omega
  · rw [heta, hsub.2]; omega
  · rfl
  · rfl
  · intro ht
    simp only [List.mem_cons, List.mem_singleton, not_or] at ht
    obtain ⟨h1, h2, h3⟩ := ht
    simp [get_range_start, h1, h2, h3]

/-- C7 witness: at 2026-10-15 11:22:33.000044 the resolver yields Monday
2026-10-12 for `week`, 2026-10-01 for `month`, 2026-01-01 for `year`, and
the month start again for the unknown token `quarter`. -/
theorem range_start_calendar_witness :
    (get_range_start "week" ⟨2026, 10, 15, 11, 22, 33, 44⟩).date.weekday = 0 ∧
    get_range_start "week" ⟨2026, 10, 15, 11, 22, 33, 44⟩ = ⟨2026, 10, 12, 0, 0, 0, 0⟩ ∧
    get_range_start "month" ⟨2026, 10, 15, 11, 22, 33, 44⟩ = ⟨2026, 10, 1, 0, 0, 0, 0⟩ ∧
    get_range_start "year" ⟨2026, 10, 15, 11, 22, 33, 44⟩ = ⟨2026, 1, 1, 0, 0, 0, 0⟩ ∧
    get_range_start "quarter" ⟨2026, 10, 15, 11, 22, 33, 44⟩ =
      get_range_start "month" ⟨2026, 10, 15, 11, 22, 33, 44⟩ := by
  have h := range_start_calendar "quarter" ⟨2026, 10, 15, 11, 22, 33, 44⟩ (by decide)
  exact ⟨h.1.2.1, by decide, h.2.1, h.2.2.1, h.2.2.2 (by decide)⟩

end Analytics
